import Mathlib

/-!
Shallow embedding of the checkout aggregator and the selected-items store of
the food-delivery storefront.  Monetary values and JavaScript numbers are
modelled as rationals; stored documents are modelled as explicit lookup
functions, with fallible document-store calls returning `Except Unit`.
-/

/-- One cart line as carried through the selected-items store and checkout
(`CartItem` in `SeletedItemSlice` / `Checkout.tsx`).  `discountPercentage`,
`userIdSeller` are optional fields of the document. -/
structure CartItem where
  id : String
  userId : String
  itemId : String
  foodName : String
  foodHotel : String
  foodPrice : ℚ
  foodImage : String
  deliveryTime : ℚ
  discountPercentage : Option ℚ
  quantity : ℚ
  userIdSeller : Option String
  deriving DecidableEq

/-- Flat tax constant (`const GST = 15` in Checkout.tsx). -/
def GST : ℚ := 15

/-- Flat platform-fee constant (`const platformFee = 7` in Checkout.tsx). -/
def platformFee : ℚ := 7

/-- The discounted unit price of a line: the ternary
`item.discountPercentage ? item.foodPrice - (item.foodPrice * item.discountPercentage) / 100 : item.foodPrice`.
JavaScript truthiness: an absent percentage and a percentage of `0` both take
the undiscounted branch. -/
def discountedUnit (i : CartItem) : ℚ :=
  match i.discountPercentage with
  | some d => if d ≠ 0 then i.foodPrice - i.foodPrice * d / 100 else i.foodPrice
  | none => i.foodPrice

/-- Source: `totalItems = updatedItems.reduce((sum, item) => sum + item.quantity, 0)`. -/
def totalItems (items : List CartItem) : ℚ :=
  items.foldl (fun sum i => sum + i.quantity) 0

/-- Source: `originalTotal = updatedItems.reduce((sum, item) => sum + item.foodPrice * item.quantity, 0)`. -/
def originalTotal (items : List CartItem) : ℚ :=
  items.foldl (fun sum i => sum + i.foodPrice * i.quantity) 0

/-- Source `discountedTotal`: per-line discounted unit price times quantity, summed by
`reduce` from `0`. -/
def discountedTotal (items : List CartItem) : ℚ :=
  items.foldl (fun sum i => sum + discountedUnit i * i.quantity) 0

/-- Source: `totalDiscount = originalTotal - discountedTotal`. -/
def totalDiscount (items : List CartItem) : ℚ :=
  originalTotal items - discountedTotal items

/-- The delivery fee charged: `isPremium ? 0 : maxDeliveryFee`. -/
def deliveryFeeCharged (isPremium : Bool) (maxDeliveryFee : ℚ) : ℚ :=
  if isPremium then 0 else maxDeliveryFee

/-- Source: `totalPayable = discountedTotal + (isPremium ? 0 : maxDeliveryFee) + GST + platformFee`. -/
def totalPayable (items : List CartItem) (isPremium : Bool) (maxDeliveryFee : ℚ) : ℚ :=
  discountedTotal items + deliveryFeeCharged isPremium maxDeliveryFee + GST + platformFee

/-- Spec-side per-line discounted amount, following the claim wording:
`quantity * (unitPrice - unitPrice*discountPercentage/100 when a discount
percentage is present, else unitPrice)`. -/
def specLineDiscounted (i : CartItem) : ℚ :=
  i.quantity *
    (match i.discountPercentage with
     | some d => i.foodPrice - i.foodPrice * d / 100
     | none => i.foodPrice)

/-- Spec-side discounted total: sum of `specLineDiscounted` over the lines. -/
def specDiscountedTotal (items : List CartItem) : ℚ :=
  (items.map specLineDiscounted).sum

/- Helper: a `reduce`-style fold from `0` is the sum of the mapped list. -/
lemma foldl_add_eq_sum (f : CartItem → ℚ) (items : List CartItem) (a : ℚ) :
    items.foldl (fun sum i => sum + f i) a = a + (items.map f).sum := by
  induction items generalizing a with
  | nil => simp
  | cons i rest ih =>
      simp only [List.foldl_cons, List.map_cons, List.sum_cons, ih]
      ring

lemma discountedTotal_eq_sum (items : List CartItem) :
    discountedTotal items = (items.map (fun i => discountedUnit i * i.quantity)).sum := by
  simpa using foldl_add_eq_sum (fun i => discountedUnit i * i.quantity) items 0

lemma originalTotal_eq_sum (items : List CartItem) :
    originalTotal items = (items.map (fun i => i.foodPrice * i.quantity)).sum := by
  simpa using foldl_add_eq_sum (fun i => i.foodPrice * i.quantity) items 0

lemma discountedUnit_mul_eq_specLine (i : CartItem) :
    discountedUnit i * i.quantity = specLineDiscounted i := by
  unfold discountedUnit specLineDiscounted
  cases h : i.discountPercentage with
  | none => ring
  | some d =>
      by_cases hd : d = 0
      · subst hd; simp; ring
      · simp [hd]; ring

lemma discountedTotal_eq_spec (items : List CartItem) :
    discountedTotal items = specDiscountedTotal items := by
  rw [discountedTotal_eq_sum]
  unfold specDiscountedTotal
  congr 1
  exact List.map_congr_left fun i _ => discountedUnit_mul_eq_specLine i

/-- C1: for every non-empty selection whose lines all have quantity ≥ 1,
`totalPayable` equals `discountedTotal + deliveryFeeCharged + tax + platformFee`
where the discounted total follows the spec formula, tax and platform fee are
the constants 15 and 7, and the fee charged is 0 under premium and the
resolved max delivery fee otherwise. -/
theorem totalPayable_formula (items : List CartItem) (isPremium : Bool) (maxFee : ℚ)
    (hne : items ≠ []) (hq : ∀ i ∈ items, 1 ≤ i.quantity) :
    totalPayable items isPremium maxFee =
      specDiscountedTotal items + (if isPremium then 0 else maxFee) + 15 + 7 := by
  unfold totalPayable deliveryFeeCharged GST platformFee
  rw [discountedTotal_eq_spec]

lemma sum_map_sub (f g : CartItem → ℚ) (l : List CartItem) :
    (l.map f).sum - (l.map g).sum = (l.map (fun i => f i - g i)).sum := by
  induction l with
  | nil => simp
  | cons i rest ih => simp only [List.map_cons, List.sum_cons]; rw [← ih]; ring

lemma discountedUnit_nonneg_le (i : CartItem) (hp : 0 ≤ i.foodPrice)
    (hd : ∀ d, i.discountPercentage = some d → 0 ≤ d ∧ d ≤ 100) :
    0 ≤ discountedUnit i ∧ discountedUnit i ≤ i.foodPrice := by
  unfold discountedUnit
  cases h : i.discountPercentage with
  | none => exact ⟨hp, le_refl _⟩
  | some d =>
      obtain ⟨hd0, hd100⟩ := hd d h
      by_cases hz : d = 0
      · simp [hz]; exact hp
      · simp only [hz, ne_eq, not_false_eq_true, if_true]
        constructor
        · have : i.foodPrice * d / 100 ≤ i.foodPrice * 100 / 100 := by
            apply div_le_div_of_nonneg_right _ (by norm_num)
            exact mul_le_mul_of_nonneg_left hd100 hp
          nlinarith
        · have : 0 ≤ i.foodPrice * d / 100 := by positivity
          linarith

/-- C6: for every selection whose lines satisfy the data-model validity
conditions (unit price ≥ 0, quantity ≥ 0 per the CartLine invariant, discount
percentage in [0, 100] when present), `totalDiscount` equals
`originalTotal - discountedTotal`, and both `totalDiscount` and
`discountedTotal` are nonnegative. -/
theorem totals_nonneg (items : List CartItem)
    (h : ∀ i ∈ items, 0 ≤ i.foodPrice ∧ 0 ≤ i.quantity ∧
          ∀ d, i.discountPercentage = some d → 0 ≤ d ∧ d ≤ 100) :
    totalDiscount items = originalTotal items - discountedTotal items ∧
      0 ≤ totalDiscount items ∧ 0 ≤ discountedTotal items := by
  refine ⟨rfl, ?_, ?_⟩
  · unfold totalDiscount
    rw [originalTotal_eq_sum, discountedTotal_eq_sum, sum_map_sub]
    apply List.sum_nonneg
    intro x hx
    simp only [List.mem_map] at hx
    obtain ⟨i, hi, rfl⟩ := hx
    obtain ⟨hp, hq, hd⟩ := h i hi
    have := discountedUnit_nonneg_le i hp hd
    have : i.foodPrice * i.quantity - discountedUnit i * i.quantity
        = (i.foodPrice - discountedUnit i) * i.quantity := by ring
    rw [this]
    have h2 := discountedUnit_nonneg_le i hp hd
    exact mul_nonneg (by linarith [h2.2]) hq
  · rw [discountedTotal_eq_sum]
    apply List.sum_nonneg
    intro x hx
    simp only [List.mem_map] at hx
    obtain ⟨i, hi, rfl⟩ := hx
    obtain ⟨hp, hq, hd⟩ := h i hi
    exact mul_nonneg (discountedUnit_nonneg_le i hp hd).1 hq

/-- Witness for C6 at a concrete discounted line. -/
theorem totals_nonneg_witness :
    totalDiscount
        [{ id := "a", userId := "u", itemId := "ia", foodName := "n", foodHotel := "h",
           foodPrice := 100, foodImage := "", deliveryTime := 30,
           discountPercentage := some 10, quantity := 2, userIdSeller := none }] =
      originalTotal
        [{ id := "a", userId := "u", itemId := "ia", foodName := "n", foodHotel := "h",
           foodPrice := 100, foodImage := "", deliveryTime := 30,
           discountPercentage := some 10, quantity := 2, userIdSeller := none }] -
      discountedTotal
        [{ id := "a", userId := "u", itemId := "ia", foodName := "n", foodHotel := "h",
           foodPrice := 100, foodImage := "", deliveryTime := 30,
           discountPercentage := some 10, quantity := 2, userIdSeller := none }] ∧
      0 ≤ totalDiscount
        [{ id := "a", userId := "u", itemId := "ia", foodName := "n", foodHotel := "h",
           foodPrice := 100, foodImage := "", deliveryTime := 30,
           discountPercentage := some 10, quantity := 2, userIdSeller := none }] ∧
      0 ≤ discountedTotal
        [{ id := "a", userId := "u", itemId := "ia", foodName := "n", foodHotel := "h",
           foodPrice := 100, foodImage := "", deliveryTime := 30,
           discountPercentage := some 10, quantity := 2, userIdSeller := none }] :=
  totals_nonneg _ (by
    intro i hi
    simp only [List.mem_singleton] at hi
    subst hi
    refine ⟨by norm_num, by norm_num, ?_⟩
    intro d hd
    simp only [Option.some.injEq] at hd
    subst hd
    norm_num)

/-- Witness for C1 at a concrete two-line selection. -/
theorem totalPayable_formula_witness :
    totalPayable
        [{ id := "a", userId := "u", itemId := "ia", foodName := "n", foodHotel := "h",
           foodPrice := 100, foodImage := "", deliveryTime := 30,
           discountPercentage := some 10, quantity := 2, userIdSeller := none },
         { id := "b", userId := "u", itemId := "ib", foodName := "n", foodHotel := "h",
           foodPrice := 40, foodImage := "", deliveryTime := 30,
           discountPercentage := none, quantity := 1, userIdSeller := none }]
        false 50 =
      specDiscountedTotal
        [{ id := "a", userId := "u", itemId := "ia", foodName := "n", foodHotel := "h",
           foodPrice := 100, foodImage := "", deliveryTime := 30,
           discountPercentage := some 10, quantity := 2, userIdSeller := none },
         { id := "b", userId := "u", itemId := "ib", foodName := "n", foodHotel := "h",
           foodPrice := 40, foodImage := "", deliveryTime := 30,
           discountPercentage := none, quantity := 1, userIdSeller := none }]
        + (if false then 0 else 50) + 15 + 7 :=
  totalPayable_formula _ false 50 (by simp) (by
    intro i hi
    simp only [List.mem_cons, List.mem_singleton] at hi
    rcases hi with h | h | h
    · subst h; norm_num
    · subst h; norm_num
    · cases h)

/-- Shopper profile as read at checkout: the optional premium-membership
window, normalized to a single comparable time axis (milliseconds) as in
`Timestamp.toDate()` / `new Date(...)`. -/
structure UserProfile where
  premium_start : Option ℤ
  premium_end : Option ℤ
  deriving DecidableEq

/-- The premium check in `loadData`:
`if (user?.premium_start && user?.premium_end) setIsPremium(new Date() >= startDate && new Date() <= endDate); else setIsPremium(false)`. -/
def isPremiumActive (u : UserProfile) (now : ℤ) : Bool :=
  match u.premium_start, u.premium_end with
  | some s, some e => decide (s ≤ now) && decide (now ≤ e)
  | _, _ => false

/-- C3: premium is active iff the profile carries a premium window and the
current time lies in the closed interval `[start, end]`; when active the
delivery fee charged is exactly 0, and otherwise the resolved fee is charged
unmodified. -/
theorem premium_closed_interval (u : UserProfile) (now : ℤ) (fee : ℚ) :
    (isPremiumActive u now = true ↔
       ∃ s e, u.premium_start = some s ∧ u.premium_end = some e ∧ s ≤ now ∧ now ≤ e) ∧
    (isPremiumActive u now = true → deliveryFeeCharged (isPremiumActive u now) fee = 0) ∧
    (isPremiumActive u now = false → deliveryFeeCharged (isPremiumActive u now) fee = fee) := by
  refine ⟨?_, ?_, ?_⟩
  · unfold isPremiumActive
    cases hs : u.premium_start with
    | none => simp
    | some s =>
        cases he : u.premium_end with
        | none => simp
        | some e =>
            simp only [Bool.and_eq_true, decide_eq_true_eq, Option.some.injEq]
            constructor
            · rintro ⟨h1, h2⟩; exact ⟨s, e, rfl, rfl, h1, h2⟩
            · rintro ⟨s2, e2, hs2, he2, h1, h2⟩
              cases hs2; cases he2; exact ⟨h1, h2⟩
  · intro h; rw [h]; rfl
  · intro h; rw [h]; rfl

/-- Witness for C3: a concrete active window waives the fee. -/
theorem premium_closed_interval_witness :
    deliveryFeeCharged (isPremiumActive ⟨some 1, some 5⟩ 3) 42 = 0 :=
  (premium_closed_interval ⟨some 1, some 5⟩ 3 42).2.1 (by decide)

/-- A `foodItems` document as used at checkout: only its `userId` field (the
seller) matters; the field may be missing. -/
structure FoodDoc where
  userId : Option String
  deriving DecidableEq

/-- A `users` document as used at checkout: only its `deliveryFee` field
matters; the field may be missing. -/
structure UserDoc where
  deliveryFee : Option ℚ
  deriving DecidableEq

/-- The document store as checkout queries it.  `foodItems` is the point
lookup `getDoc(doc(fireDB, "foodItems", itemId))` (`none` = doc absent);
`users` is the first document of `query(users, where("uid", "==", uid))`
(`none` = empty snapshot).  Either call may raise a query error, modelled by
`Except.error`. -/
structure FireDB where
  foodItems : String → Except Unit (Option FoodDoc)
  users : String → Except Unit (Option UserDoc)

/-- Semantics of `[...new Set(xs)]`: deduplication keeping first occurrences in order. -/
def jsSetDedup (l : List String) : List String :=
  l.foldl (fun acc x => if x ∈ acc then acc else acc ++ [x]) []

/-- The first loop of `fetchMaxDeliveryFee`: for each item id, fetch the food
doc and push its `userId` when the doc exists and the field is truthy. -/
def collectSellerIds (db : FireDB) : List String → Except Unit (List String)
  | [] => Except.ok []
  | itemId :: rest => do
      let fd ← db.foodItems itemId
      let tail ← collectSellerIds db rest
      match fd with
      | some d =>
          match d.userId with
          | some uid => if uid ≠ "" then Except.ok (uid :: tail) else Except.ok tail
          | none => Except.ok tail
      | none => Except.ok tail

/-- The second loop of `fetchMaxDeliveryFee`: for each seller uid, fetch the
user doc and push its `deliveryFee` when the snapshot is nonempty and the fee
is truthy. -/
def collectFees (db : FireDB) : List String → Except Unit (List ℚ)
  | [] => Except.ok []
  | uid :: rest => do
      let ud ← db.users uid
      let tail ← collectFees db rest
      match ud with
      | some d =>
          match d.deliveryFee with
          | some f => if f ≠ 0 then Except.ok (f :: tail) else Except.ok tail
          | none => Except.ok tail
      | none => Except.ok tail

/-- Semantics of `Math.max(...fees)` on a nonempty list (0 on the empty list, unused). -/
def jsMaxList : List ℚ → ℚ
  | [] => 0
  | f :: fs => fs.foldl max f

/-- The list of resolved per-seller delivery fees for a selection: distinct
item ids, their sellers, distinct sellers, their truthy fees. -/
def resolvedFeesE (db : FireDB) (cartItems : List CartItem) : Except Unit (List ℚ) := do
  let sellers ← collectSellerIds db (jsSetDedup (cartItems.map (fun i => i.itemId)))
  collectFees db (jsSetDedup sellers)

/-- The body of `fetchMaxDeliveryFee` before the `catch`. -/
def fetchMaxDeliveryFeeE (db : FireDB) (cartItems : List CartItem) : Except Unit ℚ := do
  let fees ← resolvedFeesE db cartItems
  Except.ok (if 0 < fees.length then jsMaxList fees else 0)

/-- Function `fetchMaxDeliveryFee` including its `try/catch`: a query error resolves
the fee to 0. -/
def fetchMaxDeliveryFee (db : FireDB) (cartItems : List CartItem) : ℚ :=
  match fetchMaxDeliveryFeeE db cartItems with
  | Except.ok f => f
  | Except.error _ => 0

lemma foldl_max_bounds (l : List ℚ) : ∀ a : ℚ,
    a ≤ l.foldl max a ∧ ∀ g ∈ l, g ≤ l.foldl max a := by
  induction l with
  | nil => intro a; simp
  | cons g gs ih =>
      intro a
      obtain ⟨h1, h2⟩ := ih (max a g)
      refine ⟨le_trans (le_max_left a g) h1, ?_⟩
      intro x hx
      simp only [List.mem_cons] at hx
      rcases hx with h | h
      · subst h
        exact le_trans (le_max_right a x) h1
      · exact h2 x h

lemma foldl_max_mem (l : List ℚ) : ∀ a : ℚ, l.foldl max a = a ∨ l.foldl max a ∈ l := by
  induction l with
  | nil => intro a; simp
  | cons g gs ih =>
      intro a
      simp only [List.foldl_cons]
      rcases ih (max a g) with h | h
      · rw [h]
        rcases max_choice a g with hm | hm
        · exact Or.inl hm
        · right; simp [hm]
      · right; simp [h]

lemma jsMaxList_mem (f : ℚ) (fs : List ℚ) : jsMaxList (f :: fs) ∈ f :: fs := by
  unfold jsMaxList
  rcases foldl_max_mem fs f with h | h
  · simp [h]
  · simp [h]

lemma le_jsMaxList (f : ℚ) (fs : List ℚ) : ∀ g ∈ f :: fs, g ≤ jsMaxList (f :: fs) := by
  intro g hg
  unfold jsMaxList
  obtain ⟨h1, h2⟩ := foldl_max_bounds fs f
  simp only [List.mem_cons] at hg
  rcases hg with h | h
  · subst h; exact h1
  · exact h2 g h

/-- C2: the resolved delivery fee is the maximum of the resolved per-seller
fees (an element of the fee list that bounds every entry — so neither their
sum nor merely the first found), 0 when no fee resolves, and 0 when the
lookup raises a query error instead of failing. -/
theorem fetchMaxDeliveryFee_is_max (db : FireDB) (items : List CartItem) :
    (∀ e, fetchMaxDeliveryFeeE db items = Except.error e →
        fetchMaxDeliveryFee db items = 0) ∧
    ∀ fees, resolvedFeesE db items = Except.ok fees →
      (fees = [] → fetchMaxDeliveryFee db items = 0) ∧
      (fees ≠ [] → fetchMaxDeliveryFee db items ∈ fees ∧
        ∀ f ∈ fees, f ≤ fetchMaxDeliveryFee db items) := by
  constructor
  · intro e he
    unfold fetchMaxDeliveryFee
    rw [he]
  · intro fees hfees
    have hE : fetchMaxDeliveryFeeE db items =
        Except.ok (if 0 < fees.length then jsMaxList fees else 0) := by
      unfold fetchMaxDeliveryFeeE
      rw [hfees]
      rfl
    have hfee : fetchMaxDeliveryFee db items =
        (if 0 < fees.length then jsMaxList fees else 0) := by
      unfold fetchMaxDeliveryFee
      rw [hE]
    constructor
    · intro h0
      subst h0
      simpa using hfee
    · intro hne
      cases fees with
      | nil => exact absurd rfl hne
      | cons f fs =>
          rw [hfee]
          simp only [List.length_cons, Nat.zero_lt_succ, if_pos]
          exact ⟨jsMaxList_mem f fs, le_jsMaxList f fs⟩

/-- Sample cart line builder for concrete witnesses. -/
def sampleItem (idv itemIdv : String) (price q : ℚ) (d : Option ℚ) : CartItem :=
  { id := idv, userId := "u", itemId := itemIdv, foodName := "n", foodHotel := "h",
    foodPrice := price, foodImage := "", deliveryTime := 30,
    discountPercentage := d, quantity := q, userIdSeller := none }

/-- Sample document store with two sellers whose fees are 30 and 70. -/
def sampleDB : FireDB :=
  { foodItems := fun i => Except.ok (some { userId := some i }),
    users := fun u => Except.ok (some { deliveryFee := some (if u = "a" then 30 else 70) }) }

/-- Witness for C2: two items of two sellers with fees 30 and 70. -/
theorem fetchMaxDeliveryFee_is_max_witness :
    fetchMaxDeliveryFee sampleDB [sampleItem "1" "a" 100 1 none, sampleItem "2" "b" 50 1 none]
        ∈ [(30 : ℚ), 70] ∧
      ∀ f ∈ [(30 : ℚ), 70],
        f ≤ fetchMaxDeliveryFee sampleDB
              [sampleItem "1" "a" 100 1 none, sampleItem "2" "b" 50 1 none] :=
  ((fetchMaxDeliveryFee_is_max sampleDB
      [sampleItem "1" "a" 100 1 none, sampleItem "2" "b" 50 1 none]).2
    [30, 70] (by rfl)).2 (by simp)

/-- The selected-items slice state (`SelectedItemsState` in `SeletedItemSlice`). -/
structure SelectedItemsState where
  items : List CartItem
  deriving DecidableEq

/-- Reducer `setSelectedItems`: the store becomes exactly the payload. -/
def setSelectedItems (payload : List CartItem) : SelectedItemsState :=
  { items := payload }

/-- Reducer `clearSelectedItems`: `state.items = []`. -/
def clearSelectedItems (s : SelectedItemsState) : SelectedItemsState :=
  { s with items := [] }

/-- Semantics of `state.items.find((i) => i.id === id)` followed by an in-place mutation of
the found draft: overwrites the quantity of the first line with the given id,
if any. -/
def setFirstQuantity : List CartItem → String → ℚ → List CartItem
  | [], _, _ => []
  | i :: rest, idv, q =>
      if i.id = idv then { i with quantity := q } :: rest
      else i :: setFirstQuantity rest idv q

/-- The `updateSelectedQuantity` reducer. -/
def updateSelectedQuantity (s : SelectedItemsState) (idv : String) (q : ℚ) :
    SelectedItemsState :=
  { s with items := setFirstQuantity s.items idv q }

/-- The `removeSelectedItem` reducer:
`state.items = state.items.filter((i) => i.id !== action.payload)`. -/
def removeSelectedItem (s : SelectedItemsState) (idv : String) : SelectedItemsState :=
  { s with items := s.items.filter (fun i => i.id ≠ idv) }

lemma setFirstQuantity_absent (idv : String) (q : ℚ) :
    ∀ l : List CartItem, (∀ i ∈ l, i.id ≠ idv) → setFirstQuantity l idv q = l := by
  intro l
  induction l with
  | nil => intro _; rfl
  | cons i rest ih =>
      intro h
      unfold setFirstQuantity
      rw [if_neg (h i (by simp))]
      rw [ih fun j hj => h j (by simp [hj])]

/-- C7: `updateQuantity` and `remove` on an id absent from the store leave the
state exactly unchanged, for any quantity value. -/
theorem absent_id_noop (s : SelectedItemsState) (idv : String) (q : ℚ)
    (h : ∀ i ∈ s.items, i.id ≠ idv) :
    updateSelectedQuantity s idv q = s ∧ removeSelectedItem s idv = s := by
  cases s with
  | mk items =>
      constructor
      · unfold updateSelectedQuantity
        simp only [SelectedItemsState.mk.injEq]
        exact setFirstQuantity_absent idv q items h
      · unfold removeSelectedItem
        simp only [SelectedItemsState.mk.injEq]
        apply List.filter_eq_self.mpr
        intro i hi
        simpa using h i hi

/-- Witness for C7 on a concrete one-line store and an absent id. -/
theorem absent_id_noop_witness :
    updateSelectedQuantity { items := [sampleItem "a" "ia" 100 1 none] } "zz" 5 =
        { items := [sampleItem "a" "ia" 100 1 none] } ∧
      removeSelectedItem { items := [sampleItem "a" "ia" 100 1 none] } "zz" =
        { items := [sampleItem "a" "ia" 100 1 none] } :=
  absent_id_noop _ "zz" 5 (by
    intro i hi
    simp only [List.mem_singleton] at hi
    subst hi
    simp [sampleItem])

/-- C10: with duplicate ids in the store, `updateQuantity` overwrites only the
first line carrying the id (later duplicates untouched), while `remove`
deletes every line carrying the id in one operation. -/
theorem duplicate_id_semantics (pre post : List CartItem) (a : CartItem) (q : ℚ)
    (hpre : ∀ b ∈ pre, b.id ≠ a.id) :
    updateSelectedQuantity { items := pre ++ a :: post } a.id q =
        { items := pre ++ { a with quantity := q } :: post } ∧
      removeSelectedItem { items := pre ++ a :: post } a.id =
        { items := pre ++ post.filter (fun b => b.id ≠ a.id) } ∧
      ∀ b ∈ (removeSelectedItem { items := pre ++ a :: post } a.id).items,
        b.id ≠ a.id := by
  refine ⟨?_, ?_, ?_⟩
  · unfold updateSelectedQuantity
    simp only [SelectedItemsState.mk.injEq]
    induction pre with
    | nil =>
        unfold setFirstQuantity
        simp
    | cons b rest ih =>
        unfold setFirstQuantity
        rw [List.cons_append, List.cons_append]
        simp only
        rw [if_neg (hpre b (by simp))]
        rw [ih fun j hj => hpre j (by simp [hj])]
  · unfold removeSelectedItem
    simp only [SelectedItemsState.mk.injEq]
    rw [List.filter_append]
    congr 1
    · apply List.filter_eq_self.mpr
      intro b hb
      simpa using hpre b hb
    · rw [List.filter_cons]
      simp
  · intro b hb
    unfold removeSelectedItem at hb
    simp only [List.mem_filter, decide_eq_true_eq] at hb
    exact hb.2

/-- Witness for C10: the store holds two lines with the same id; updating
touches only the first, removing deletes both. -/
theorem duplicate_id_semantics_witness :
    updateSelectedQuantity
        { items := [] ++ sampleItem "a" "i1" 100 1 none :: [sampleItem "a" "i2" 50 2 none] }
        (sampleItem "a" "i1" 100 1 none).id 9 =
      { items := [] ++
          { sampleItem "a" "i1" 100 1 none with quantity := 9 } :: [sampleItem "a" "i2" 50 2 none] } ∧
    removeSelectedItem
        { items := [] ++ sampleItem "a" "i1" 100 1 none :: [sampleItem "a" "i2" 50 2 none] }
        (sampleItem "a" "i1" 100 1 none).id =
      { items := [] ++
          [sampleItem "a" "i2" 50 2 none].filter
            (fun b => b.id ≠ (sampleItem "a" "i1" 100 1 none).id) } ∧
    ∀ b ∈ (removeSelectedItem
        { items := [] ++ sampleItem "a" "i1" 100 1 none :: [sampleItem "a" "i2" 50 2 none] }
        (sampleItem "a" "i1" 100 1 none).id).items,
      b.id ≠ (sampleItem "a" "i1" 100 1 none).id :=
  duplicate_id_semantics [] [sampleItem "a" "i2" 50 2 none]
    (sampleItem "a" "i1" 100 1 none) 9 (by intro b hb; cases hb)

/-- The priced order summary computed by the checkout view once loading ends. -/
structure PricingSummary where
  totalItems : ℚ
  originalTotal : ℚ
  discountedTotal : ℚ
  totalDiscount : ℚ
  totalPayable : ℚ
  deriving DecidableEq

/-- The pricing block of the checkout view (lines 168-184 of Checkout.tsx). -/
def computePricing (items : List CartItem) (isPremium : Bool) (maxFee : ℚ) :
    PricingSummary :=
  { totalItems := totalItems items,
    originalTotal := originalTotal items,
    discountedTotal := discountedTotal items,
    totalDiscount := totalDiscount items,
    totalPayable := totalPayable items isPremium maxFee }

/-- Outcome of entering the checkout screen: the `useEffect` precondition
checks navigate away, otherwise `loadData` resolves the fee and premium flag
and the summary is computed. -/
inductive CheckoutOutcome where
  | abortToLogin
  | abortToCart
  | priced (summary : PricingSummary)
  deriving DecidableEq

/-- Entering checkout: `auth.currentUser` null → `/login`;
`cartItems.length === 0` → `/cart`; otherwise the priced summary is produced
from the resolved fee and premium status. -/
def checkoutEntry (currentUser : Option String) (cartItems : List CartItem)
    (db : FireDB) (profile : UserProfile) (now : ℤ) : CheckoutOutcome :=
  match currentUser with
  | none => CheckoutOutcome.abortToLogin
  | some _ =>
      if cartItems.length = 0 then CheckoutOutcome.abortToCart
      else
        CheckoutOutcome.priced
          (computePricing cartItems (isPremiumActive profile now)
            (fetchMaxDeliveryFee db cartItems))

/-- C8: an authenticated shopper entering checkout with an empty selection is
sent back to the cart view, and no priced summary is ever produced. -/
theorem empty_selection_aborts (uid : String) (db : FireDB) (profile : UserProfile)
    (now : ℤ) :
    checkoutEntry (some uid) [] db profile now = CheckoutOutcome.abortToCart ∧
      ∀ p, checkoutEntry (some uid) [] db profile now ≠ CheckoutOutcome.priced p := by
  constructor
  · rfl
  · intro p h
    cases h

/-- Checkout-local component state touched by the success timeout. -/
structure CheckoutUIState where
  updatedItems : List CartItem
  showDeliveryAnimation : Bool
  deriving DecidableEq

/-- Application state visible at order completion: the checkout component
local state plus the Redux selected-items slice. -/
structure AppState where
  checkoutUI : CheckoutUIState
  selectedItems : SelectedItemsState
  deriving DecidableEq

/-- The timeout callback that ends the success flow (lines 265-269 of
Checkout.tsx): `setUpdatedItems([]); setShowDeliveryAnimation(false);
navigate("/orders")`.  `handlePaymentSuccess` dispatches no Redux action, so
the selected-items slice is carried through unchanged. -/
def completedTransition (s : AppState) : AppState :=
  { s with checkoutUI := { updatedItems := [], showDeliveryAnimation := false } }

/-- C4 counterexample: completing an order with one line in the Selected-Items
Store leaves the store still holding that line — the store is not cleared to
the empty sequence. -/
theorem completed_store_not_cleared :
    (completedTransition
        { checkoutUI := { updatedItems := [sampleItem "a" "ia" 100 1 none],
                          showDeliveryAnimation := true },
          selectedItems := { items := [sampleItem "a" "ia" 100 1 none] } }).selectedItems.items
      ≠ [] := by
  intro h
  cases h

/-- C4 amended: on successful order placement the checkout local working
copy of the selection is cleared to empty after the display delay, while the
Selected-Items Store itself is left exactly unchanged (no clear action is
dispatched). -/
theorem completed_clears_local_copy_only (s : AppState) :
    (completedTransition s).checkoutUI.updatedItems = [] ∧
      (completedTransition s).selectedItems = s.selectedItems :=
  ⟨rfl, rfl⟩

/-- An order document as built by `handlePaymentSuccess`. -/
structure Order where
  itemId : String
  foodName : String
  foodHotel : String
  foodPrice : ℚ
  quantity : ℚ
  discountAmount : ℚ
  deliveryFee : ℚ
  platformFee : ℚ
  GST : ℚ
  totalAmount : ℚ
  food_img : String
  seller_id : Option String
  userId : String
  paymentId : String
  itemUserId : Option String
  deriving DecidableEq

/-- Per-line `discountAmount`:
`item.discountPercentage ? ((item.foodPrice * item.discountPercentage) / 100) * item.quantity : 0`. -/
def discountAmount (i : CartItem) : ℚ :=
  match i.discountPercentage with
  | some d => if d ≠ 0 then i.foodPrice * d / 100 * i.quantity else 0
  | none => 0

/-- Per-line `totalAmount`: the discounted line amount plus the delivery fee
charged, the platform fee, and GST — all in full for this one line. -/
def lineTotalAmount (i : CartItem) (isPremium : Bool) (maxFee : ℚ) : ℚ :=
  discountedUnit i * i.quantity + deliveryFeeCharged isPremium maxFee + platformFee + GST

/-- The per-line seller lookup with its inner try/catch:
`sellerId = data.userId || null`; lookup errors and missing docs yield null. -/
def resolveSellerId (db : FireDB) (itemIdv : String) : Option String :=
  match db.foodItems itemIdv with
  | Except.ok (some d) =>
      match d.userId with
      | some uidv => if uidv ≠ "" then some uidv else none
      | none => none
  | Except.ok none => none
  | Except.error _ => none

/-- The `orderData` document built for one line. -/
def mkOrder (db : FireDB) (isPremium : Bool) (maxFee : ℚ) (uid pid : String)
    (i : CartItem) : Order :=
  { itemId := i.itemId, foodName := i.foodName, foodHotel := i.foodHotel,
    foodPrice := i.foodPrice, quantity := i.quantity,
    discountAmount := discountAmount i,
    deliveryFee := deliveryFeeCharged isPremium maxFee,
    platformFee := platformFee, GST := GST,
    totalAmount := lineTotalAmount i isPremium maxFee,
    food_img := i.foodImage,
    seller_id := resolveSellerId db i.itemId,
    userId := uid, paymentId := pid,
    itemUserId :=
      match i.userIdSeller with
      | some s2 => if s2 ≠ "" then some s2 else none
      | none => none }

/-- A document of the persisted `cart` collection. -/
structure CartDoc where
  docId : String
  itemId : String
  userId : String
  deriving DecidableEq

/-- The externally persisted state touched by fulfilment: the `orders` and
`cart` collections. -/
structure OrdersWorld where
  orders : List Order
  cart : List CartDoc
  deriving DecidableEq

/-- The fulfilment environment: the document store plus success oracles for
the k-th order insert, the k-th cart query, and each cart delete. -/
structure FulfillEnv where
  db : FireDB
  addOk : ℕ → Bool
  queryOk : ℕ → Bool
  delOk : String → Bool

/-- Doc ids of the cart snapshot matching `itemId == item.itemId` and
`userId == currentUser.uid`. -/
def matchingDocIds (cart : List CartDoc) (itemIdv uid : String) : List String :=
  (cart.filter (fun c => c.itemId = itemIdv ∧ c.userId = uid)).map (fun c => c.docId)

/-- The inner `for (const docSnap of cartSnapshot.docs) await deleteDoc(...)`:
sequential deletes, stopping at the first failing delete. -/
def deleteDocsLoop (delOk : String → Bool) : List String → List CartDoc → List CartDoc × Bool
  | [], cart => (cart, true)
  | dId :: rest, cart =>
      if delOk dId then deleteDocsLoop delOk rest (cart.filter (fun c => c.docId ≠ dId))
      else (cart, false)

/-- Fulfilment of one line: persist its order (may fail), query the matching
cart docs (may fail), then delete them one by one.  The boolean reports
whether the line completed without a raised error. -/
def processLine (env : FulfillEnv) (isPremium : Bool) (maxFee : ℚ) (uid pid : String)
    (k : ℕ) (item : CartItem) (w : OrdersWorld) : OrdersWorld × Bool :=
  if env.addOk k then
    let w1 : OrdersWorld :=
      { w with orders := w.orders ++ [mkOrder env.db isPremium maxFee uid pid item] }
    if env.queryOk k then
      let step := deleteDocsLoop env.delOk (matchingDocIds w1.cart item.itemId uid) w1.cart
      ({ w1 with cart := step.1 }, step.2)
    else (w1, false)
  else (w, false)

/-- The per-line loop of `handlePaymentSuccess`: lines are processed strictly
in order; the first raised error aborts the loop (reaching the outer `catch`,
reported to the shopper) with no compensation of earlier lines. -/
def runLines (env : FulfillEnv) (isPremium : Bool) (maxFee : ℚ) (uid pid : String) :
    List CartItem → ℕ → OrdersWorld → OrdersWorld × Bool
  | [], _, w => (w, true)
  | item :: rest, k, w =>
      let r := processLine env isPremium maxFee uid pid k item w
      if r.2 then runLines env isPremium maxFee uid pid rest (k + 1) r.1
      else (r.1, false)

/-- Function `handlePaymentSuccess` restricted to its effect on persisted state. -/
def handlePaymentSuccess (env : FulfillEnv) (isPremium : Bool) (maxFee : ℚ)
    (uid pid : String) (updatedItems : List CartItem) (w : OrdersWorld) :
    OrdersWorld × Bool :=
  runLines env isPremium maxFee uid pid updatedItems 0 w

lemma deleteDocsLoop_sublist (delOk : String → Bool) :
    ∀ (ids : List String) (cart : List CartDoc),
      List.Sublist (deleteDocsLoop delOk ids cart).1 cart := by
  intro ids
  induction ids with
  | nil => intro cart; exact List.Sublist.refl _
  | cons dId rest ih =>
      intro cart
      unfold deleteDocsLoop
      cases h : delOk dId with
      | false => simp
      | true =>
          simp only [if_true]
          exact (ih _).trans (List.filter_sublist _)

lemma deleteDocsLoop_all_ok (delOk : String → Bool) (hdel : ∀ d, delOk d = true) :
    ∀ (ids : List String) (cart : List CartDoc),
      deleteDocsLoop delOk ids cart = (cart.filter (fun c => c.docId ∉ ids), true) := by
  intro ids
  induction ids with
  | nil =>
      intro cart
      simp [deleteDocsLoop]
  | cons dId rest ih =>
      intro cart
      unfold deleteDocsLoop
      rw [hdel dId]
      simp only [if_true]
      rw [ih]
      congr 1
      rw [List.filter_filter]
      apply List.filter_congr
      intro c _
      simp only [List.mem_cons, not_or, decide_not]
      cases hd : decide (c.docId = dId) <;> cases hm : decide (c.docId ∈ rest) <;>
        simp_all

lemma filter_matching_gone (cart : List CartDoc) (itemIdv uid : String) :
    ∀ c ∈ cart.filter (fun c => c.docId ∉ matchingDocIds cart itemIdv uid),
      ¬(c.itemId = itemIdv ∧ c.userId = uid) := by
  intro c hc hmatch
  simp only [List.mem_filter, decide_eq_true_eq] at hc
  apply hc.2
  unfold matchingDocIds
  apply List.mem_map.mpr
  refine ⟨c, ?_, rfl⟩
  simp only [List.mem_filter, decide_eq_true_eq]
  exact ⟨hc.1, hmatch⟩

lemma processLine_cart_sublist (env : FulfillEnv) (prem : Bool) (fee : ℚ)
    (uid pid : String) (k : ℕ) (item : CartItem) (w : OrdersWorld) :
    List.Sublist (processLine env prem fee uid pid k item w).1.cart w.cart := by
  unfold processLine
  cases hadd : env.addOk k with
  | false => simp
  | true =>
      cases hq : env.queryOk k with
      | false => simp
      | true =>
          simp only [if_true]
          exact deleteDocsLoop_sublist env.delOk _ _

lemma processLine_orders (env : FulfillEnv) (prem : Bool) (fee : ℚ)
    (uid pid : String) (k : ℕ) (item : CartItem) (w : OrdersWorld) :
    (processLine env prem fee uid pid k item w).1.orders = w.orders ∨
      (processLine env prem fee uid pid k item w).1.orders
        = w.orders ++ [mkOrder env.db prem fee uid pid item] := by
  unfold processLine
  cases hadd : env.addOk k with
  | false => simp
  | true =>
      cases hq : env.queryOk k with
      | false => simp
      | true => right; simp

lemma processLine_snd_true (env : FulfillEnv) (prem : Bool) (fee : ℚ)
    (uid pid : String) (k : ℕ) (item : CartItem) (w : OrdersWorld)
    (h : (processLine env prem fee uid pid k item w).2 = true) :
    (processLine env prem fee uid pid k item w).1.orders
      = w.orders ++ [mkOrder env.db prem fee uid pid item] := by
  unfold processLine at h ⊢
  cases hadd : env.addOk k with
  | false => rw [hadd] at h; simp at h
  | true =>
      rw [hadd] at h
      cases hq : env.queryOk k with
      | false => rw [hq] at h; simp at h
      | true => simp

lemma runLines_orders_take (env : FulfillEnv) (prem : Bool) (fee : ℚ)
    (uid pid : String) :
    ∀ (items : List CartItem) (k : ℕ) (w : OrdersWorld),
      ∃ j, j ≤ items.length ∧
        (runLines env prem fee uid pid items k w).1.orders
          = w.orders ++ (items.take j).map (mkOrder env.db prem fee uid pid) ∧
        ((runLines env prem fee uid pid items k w).2 = true → j = items.length) := by
  intro items
  induction items with
  | nil =>
      intro k w
      refine ⟨0, le_refl _, by simp [runLines], fun _ => rfl⟩
  | cons item rest ih =>
      intro k w
      cases hr : (processLine env prem fee uid pid k item w).2 with
      | false =>
          rcases processLine_orders env prem fee uid pid k item w with h | h
          · refine ⟨0, by simp, ?_, ?_⟩
            · simp [runLines, hr, h]
            · simp [runLines, hr]
          · refine ⟨1, by simp, ?_, ?_⟩
            · simp [runLines, hr, h]
            · simp [runLines, hr]
      | true =>
          obtain ⟨j, hj, horders, hsucc⟩ :=
            ih (k + 1) (processLine env prem fee uid pid k item w).1
          refine ⟨j + 1, by simpa using Nat.succ_le_succ hj, ?_, ?_⟩
          · have hrun : runLines env prem fee uid pid (item :: rest) k w
                = runLines env prem fee uid pid rest (k + 1)
                    (processLine env prem fee uid pid k item w).1 := by
              simp [runLines, hr]
            rw [hrun, horders, processLine_snd_true env prem fee uid pid k item w hr]
            simp
          · intro hs
            have hrun : runLines env prem fee uid pid (item :: rest) k w
                = runLines env prem fee uid pid rest (k + 1)
                    (processLine env prem fee uid pid k item w).1 := by
              simp [runLines, hr]
            rw [hrun] at hs
            simp [hsucc hs]

lemma runLines_cart_sublist (env : FulfillEnv) (prem : Bool) (fee : ℚ)
    (uid pid : String) :
    ∀ (items : List CartItem) (k : ℕ) (w : OrdersWorld),
      List.Sublist (runLines env prem fee uid pid items k w).1.cart w.cart := by
  intro items
  induction items with
  | nil => intro k w; simp [runLines]
  | cons item rest ih =>
      intro k w
      cases hr : (processLine env prem fee uid pid k item w).2 with
      | false =>
          have : runLines env prem fee uid pid (item :: rest) k w
              = ((processLine env prem fee uid pid k item w).1, false) := by
            simp [runLines, hr]
          rw [this]
          exact processLine_cart_sublist env prem fee uid pid k item w
      | true =>
          have : runLines env prem fee uid pid (item :: rest) k w
              = runLines env prem fee uid pid rest (k + 1)
                  (processLine env prem fee uid pid k item w).1 := by
            simp [runLines, hr]
          rw [this]
          exact (ih (k + 1) _).trans (processLine_cart_sublist env prem fee uid pid k item w)

lemma processLine_all_ok (env : FulfillEnv) (prem : Bool) (fee : ℚ)
    (uid pid : String) (k : ℕ) (item : CartItem) (w : OrdersWorld)
    (h1 : env.addOk k = true) (h2 : env.queryOk k = true)
    (h3 : ∀ d, env.delOk d = true) :
    processLine env prem fee uid pid k item w =
      ({ orders := w.orders ++ [mkOrder env.db prem fee uid pid item],
         cart := w.cart.filter
           (fun c => c.docId ∉ matchingDocIds w.cart item.itemId uid) },
       true) := by
  unfold processLine
  rw [h1, h2]
  simp only [if_true]
  rw [deleteDocsLoop_all_ok env.delOk h3]

lemma runLines_all_ok (env : FulfillEnv) (prem : Bool) (fee : ℚ) (uid pid : String)
    (h1 : ∀ k, env.addOk k = true) (h2 : ∀ k, env.queryOk k = true)
    (h3 : ∀ d, env.delOk d = true) :
    ∀ (items : List CartItem) (k : ℕ) (w : OrdersWorld),
      (runLines env prem fee uid pid items k w).2 = true ∧
      (runLines env prem fee uid pid items k w).1.orders
        = w.orders ++ items.map (mkOrder env.db prem fee uid pid) ∧
      ∀ c ∈ (runLines env prem fee uid pid items k w).1.cart,
        c.userId = uid → c.itemId ∉ items.map (fun i => i.itemId) := by
  intro items
  induction items with
  | nil =>
      intro k w
      refine ⟨rfl, by simp [runLines], ?_⟩
      intro c _ _
      simp
  | cons item rest ih =>
      intro k w
      have hpl := processLine_all_ok env prem fee uid pid k item w (h1 k) (h2 k) h3
      have hrun : runLines env prem fee uid pid (item :: rest) k w
          = runLines env prem fee uid pid rest (k + 1)
              ({ orders := w.orders ++ [mkOrder env.db prem fee uid pid item],
                 cart := w.cart.filter
                   (fun c => c.docId ∉ matchingDocIds w.cart item.itemId uid) } :
                OrdersWorld) := by
        simp [runLines, hpl]
      obtain ⟨hsnd, horders, hcart⟩ :=
        ih (k + 1)
          ({ orders := w.orders ++ [mkOrder env.db prem fee uid pid item],
             cart := w.cart.filter
               (fun c => c.docId ∉ matchingDocIds w.cart item.itemId uid) } :
            OrdersWorld)
      refine ⟨by rw [hrun]; exact hsnd, ?_, ?_⟩
      · rw [hrun, horders]
        simp
      · intro c hc hcu
        rw [hrun] at hc
        have hrest := hcart c hc hcu
        have hsub := runLines_cart_sublist env prem fee uid pid rest (k + 1)
          ({ orders := w.orders ++ [mkOrder env.db prem fee uid pid item],
             cart := w.cart.filter
               (fun c => c.docId ∉ matchingDocIds w.cart item.itemId uid) } :
            OrdersWorld)
        have hmem : c ∈ w.cart.filter
            (fun c => c.docId ∉ matchingDocIds w.cart item.itemId uid) :=
          hsub.mem hc
        have hne := filter_matching_gone w.cart item.itemId uid c hmem
        simp only [List.map_cons, List.mem_cons]
        rintro (h | h)
        · exact hne ⟨h, hcu⟩
        · exact hrest h

/-- C5: fulfilment is strictly per-line sequential — the persisted orders
grow exactly by the orders of a prefix of the selected lines in order (each
order of a line written before its cart entries are deleted and before any later
line starts), the cart only ever shrinks; a mid-loop failure stops the batch
with earlier writes and deletes left in place (no rollback) and is surfaced
as an unsuccessful run; when no operation fails, every line is emitted and
every matching cart entry of the shopper is deleted. -/
theorem fulfil_sequential_no_rollback (env : FulfillEnv) (prem : Bool) (fee : ℚ)
    (uid pid : String) (items : List CartItem) (w : OrdersWorld) :
    (∃ j, j ≤ items.length ∧
        (handlePaymentSuccess env prem fee uid pid items w).1.orders
          = w.orders ++ (items.take j).map (mkOrder env.db prem fee uid pid) ∧
        ((handlePaymentSuccess env prem fee uid pid items w).2 = true →
          j = items.length)) ∧
    List.Sublist (handlePaymentSuccess env prem fee uid pid items w).1.cart w.cart ∧
    ((∀ k, env.addOk k = true) → (∀ k, env.queryOk k = true) →
      (∀ d, env.delOk d = true) →
      (handlePaymentSuccess env prem fee uid pid items w).2 = true ∧
      (handlePaymentSuccess env prem fee uid pid items w).1.orders
        = w.orders ++ items.map (mkOrder env.db prem fee uid pid) ∧
      ∀ c ∈ (handlePaymentSuccess env prem fee uid pid items w).1.cart,
        c.userId = uid → c.itemId ∉ items.map (fun i => i.itemId)) := by
  refine ⟨?_, ?_, ?_⟩
  · exact runLines_orders_take env prem fee uid pid items 0 w
  · exact runLines_cart_sublist env prem fee uid pid items 0 w
  · intro h1 h2 h3
    exact runLines_all_ok env prem fee uid pid h1 h2 h3 items 0 w

/-- All-success fulfilment environment for the C5 witness. -/
def sampleEnv : FulfillEnv :=
  { db := sampleDB, addOk := fun _ => true, queryOk := fun _ => true,
    delOk := fun _ => true }

/-- Initial world for the C5 witness: one matching cart document. -/
def sampleWorld : OrdersWorld :=
  { orders := [], cart := [{ docId := "d1", itemId := "a", userId := "u" }] }

/-- Witness for C5: a one-line batch in the all-success environment completes,
emits exactly the order of that line, and prunes the matching cart entry. -/
theorem fulfil_sequential_no_rollback_witness :
    (handlePaymentSuccess sampleEnv false 10 "u" "p" [sampleItem "1" "a" 100 1 none]
        sampleWorld).2 = true ∧
      (handlePaymentSuccess sampleEnv false 10 "u" "p" [sampleItem "1" "a" 100 1 none]
          sampleWorld).1.orders
        = sampleWorld.orders ++
            [sampleItem "1" "a" 100 1 none].map
              (mkOrder sampleEnv.db false 10 "u" "p") ∧
      ∀ c ∈ (handlePaymentSuccess sampleEnv false 10 "u" "p"
          [sampleItem "1" "a" 100 1 none] sampleWorld).1.cart,
        c.userId = "u" →
          c.itemId ∉ [sampleItem "1" "a" 100 1 none].map (fun i => i.itemId) :=
  (fulfil_sequential_no_rollback sampleEnv false 10 "u" "p"
      [sampleItem "1" "a" 100 1 none] sampleWorld).2.2
    (fun _ => rfl) (fun _ => rfl) (fun _ => rfl)

lemma sum_map_add_const (f : CartItem → ℚ) (c : ℚ) :
    ∀ items : List CartItem,
      (items.map (fun i => f i + c)).sum = (items.map f).sum + items.length * c := by
  intro items
  induction items with
  | nil => simp
  | cons i rest ih =>
      simp only [List.map_cons, List.sum_cons, List.length_cons, ih]
      push_cast
      ring

/-- C9: the `totalAmount` of every persisted order carries the full delivery fee
charged, the full GST and the full platform fee for its one line, so the sum
of the n order totals equals `discountedTotal + n * (fee + GST + platformFee)`
and strictly exceeds the single `totalPayable` whenever n > 1 and the
per-line surcharge is positive. -/
theorem order_totalAmounts_exceed_payable (db : FireDB) (prem : Bool) (fee : ℚ)
    (uid pid : String) (items : List CartItem) :
    (∀ i : CartItem,
        (mkOrder db prem fee uid pid i).deliveryFee = deliveryFeeCharged prem fee ∧
        (mkOrder db prem fee uid pid i).GST = GST ∧
        (mkOrder db prem fee uid pid i).platformFee = platformFee ∧
        (mkOrder db prem fee uid pid i).totalAmount
          = discountedUnit i * i.quantity + deliveryFeeCharged prem fee
              + GST + platformFee) ∧
    (items.map (fun i => (mkOrder db prem fee uid pid i).totalAmount)).sum
        = discountedTotal items
            + items.length * (deliveryFeeCharged prem fee + GST + platformFee) ∧
    (1 < items.length → 0 < deliveryFeeCharged prem fee + GST + platformFee →
      totalPayable items prem fee
        < (items.map (fun i => (mkOrder db prem fee uid pid i).totalAmount)).sum) := by
  have hline : ∀ i : CartItem,
      (mkOrder db prem fee uid pid i).totalAmount
        = discountedUnit i * i.quantity
            + (deliveryFeeCharged prem fee + GST + platformFee) := by
    intro i
    show lineTotalAmount i prem fee = _
    unfold lineTotalAmount
    ring
  have hsum : (items.map (fun i => (mkOrder db prem fee uid pid i).totalAmount)).sum
      = discountedTotal items
          + items.length * (deliveryFeeCharged prem fee + GST + platformFee) := by
    rw [List.map_congr_left fun i _ => hline i]
    rw [sum_map_add_const (fun i => discountedUnit i * i.quantity)
        (deliveryFeeCharged prem fee + GST + platformFee) items]
    rw [discountedTotal_eq_sum]
  refine ⟨?_, hsum, ?_⟩
  · intro i
    refine ⟨rfl, rfl, rfl, ?_⟩
    rw [hline i]
    ring
  · intro hn hc
    rw [hsum]
    unfold totalPayable
    have h2 : (2 : ℚ) ≤ (items.length : ℚ) := by exact_mod_cast hn
    nlinarith [hc, h2]

/-- Witness for C9: with two lines, a 10-unit fee, and no premium, the sum of
the two persisted order totals strictly exceeds the one total payable. -/
theorem order_totalAmounts_exceed_payable_witness :
    totalPayable [sampleItem "1" "a" 100 1 none, sampleItem "2" "b" 50 1 none] false 10
      < (([sampleItem "1" "a" 100 1 none, sampleItem "2" "b" 50 1 none]).map
          (fun i => (mkOrder sampleDB false 10 "u" "p" i).totalAmount)).sum :=
  (order_totalAmounts_exceed_payable sampleDB false 10 "u" "p"
      [sampleItem "1" "a" 100 1 none, sampleItem "2" "b" 50 1 none]).2.2
    (by simp)
    (by norm_num [deliveryFeeCharged, GST, platformFee])

/-- Witness for C8: a concrete authenticated shopper with an empty selection
is sent back to the cart view. -/
theorem empty_selection_aborts_witness :
    checkoutEntry (some "u") [] sampleDB { premium_start := none, premium_end := none } 0
      = CheckoutOutcome.abortToCart :=
  (empty_selection_aborts "u" sampleDB { premium_start := none, premium_end := none } 0).1
